import Mathlib

/-!
Verification of the fisheye_lab progressive image-viewing pipeline.

The development shallowly embeds the concurrent loading / materialization
pipeline of the repository:

* `FisheyeLab.poolClaims` — the shared atomic claim counter
  (`nextImageToLoad.fetch_add(1)` in `backgroundLoadingFunction`,
  `single_undistort.cpp` and `dual_main.cpp`): an interleaved trace of
  fetch-and-increment events, each returning the pre-increment value.
* `FisheyeLab.ImageData`, `FisheyeLab.loadSurfaceInBackground`,
  `FisheyeLab.loadInitialImages`, `FisheyeLab.ensureTextureCreated` — the
  per-slot state of the single viewer (`struct ImageData` with its two
  atomic flags) and the operations that populate it.  SDL surfaces and
  textures are represented by numeric handles; `IMG_Load` and
  `SDL_CreateTextureFromSurface` are oracles `Nat → Option Nat` (`none`
  models a null return).
* `StereoLab.*` — the stereo viewer of `dual_main.cpp` / the README viewer:
  pairing of basenames, per-pair extension selection, navigation cursor,
  stereo materialization, and the two `main` top-level control flows.
* `UndistortLab.*` — the remap-table construction of
  `FisheyeUndistorter::createUndistortionMaps`: the try/catch attempt chain
  over construction approaches, and the per-pixel map formulas of the
  fisheye (equidistant) and standard (rectilinear) camera models.
-/

namespace FisheyeLab

/-- One slot of the viewer's shared asset table: `struct ImageData` of the
background-loading viewer in `single_undistort.cpp` (`SDL_Texture* texture`,
`SDL_Surface* surface`, `std::atomic<bool> surfaceLoaded`,
`std::atomic<bool> textureCreated`).  Pointers are modelled as
`Option Nat` handles, with `none` for null. -/
structure ImageData where
  texture : Option Nat
  surface : Option Nat
  surfaceLoaded : Bool
  textureCreated : Bool
deriving DecidableEq

/-- The `ImageData()` constructor: all pointers null, all flags false. -/
def ImageData.init : ImageData := ⟨none, none, false, false⟩

/-- The freshly constructed slot array of size `n`
(`images.resize(...)` followed by `make_unique<ImageData>()` per slot). -/
def blankImages (n : Nat) : List ImageData := List.replicate n ImageData.init

/-- The spec's per-slot decode status space
(`decodeStatus ∈ {Pending, Decoding, Decoded, Failed}`). -/
inductive DecodeStatus where
  | Pending
  | Decoding
  | Decoded
  | Failed
deriving DecidableEq

/-- A status is terminal when it is `Decoded` or `Failed`. -/
def DecodeStatus.isTerminal : DecodeStatus → Bool
  | .Decoded => true
  | .Failed => true
  | _ => false

/-- Abstraction from the code's slot state to the spec's decode status.
The code records decode state in the single atomic flag `surfaceLoaded`:
a set flag is the spec's `Decoded`; a clear flag is indistinguishable from
`Pending`.  Nothing in the source ever records a `Decoding` or `Failed`
decode status. -/
def decodeStatusOf (d : ImageData) : DecodeStatus :=
  if d.surfaceLoaded then .Decoded else .Pending

/-- Decode status of slot `i` of a slot table (`none` when out of range). -/
def slotStatus (l : List ImageData) (i : Nat) : Option DecodeStatus :=
  (l[i]?).map decodeStatusOf

/-- `images[index]` updated in place by `f`; other slots untouched
(out-of-range indices leave the list unchanged). -/
def modifyIdx (f : α → α) : Nat → List α → List α
  | _, [] => []
  | 0, d :: ds => f d :: ds
  | n + 1, d :: ds => d :: modifyIdx f n ds

/-- The successful-load update of `loadSurfaceInBackground`: store the
surface handle and set `surfaceLoaded = true`. -/
def markLoaded (s : Nat) (d : ImageData) : ImageData :=
  { d with surface := some s, surfaceLoaded := true }

/-- `FisheyeViewer::loadSurfaceInBackground(size_t index)` of
`single_undistort.cpp`: return early when `index` is out of range, call
`IMG_Load` (the `img` oracle), and only on a non-null surface store it and
set `surfaceLoaded`; a failed load changes nothing. -/
def loadSurfaceInBackground (img : Nat → Option Nat) (images : List ImageData)
    (index : Nat) : List ImageData :=
  if images.length ≤ index then images
  else
    match img index with
    | some s => modifyIdx (markLoaded s) index images
    | none => images

/-- The worker pool at quiescence: every claimed index has had its
`loadSurfaceInBackground` call finish.  `claims` is the list of indices the
workers claimed from the shared counter. -/
def runPool (img : Nat → Option Nat) (images : List ImageData)
    (claims : List Nat) : List ImageData :=
  claims.foldl (loadSurfaceInBackground img) images

/-- `const int INITIAL_LOAD_COUNT = 10`, the eager-window size. -/
def INITIAL_LOAD_COUNT : Nat := 10

/-- The per-index update of `loadInitialImages`: on a successful `IMG_Load`
store the surface, set `surfaceLoaded`, create the texture immediately
(the `tex` oracle models `SDL_CreateTextureFromSurface`) and set
`textureCreated` when that succeeded; a failed load changes nothing. -/
def applyInitialLoad (img tex : Nat → Option Nat) (i : Nat) (d : ImageData) :
    ImageData :=
  match img i with
  | some s =>
      { d with surface := some s, surfaceLoaded := true,
               texture := tex s, textureCreated := (tex s).isSome }
  | none => d

/-- One iteration of the `loadInitialImages` loop body at index `i`. -/
def loadInitialStep (img tex : Nat → Option Nat) (images : List ImageData)
    (i : Nat) : List ImageData :=
  modifyIdx (applyInitialLoad img tex i) i images

/-- `FisheyeViewer::loadInitialImages()`: synchronously decode the first
`min(INITIAL_LOAD_COUNT, images.size())` indices on the calling thread,
then set `nextImageToLoad = initialCount`.  Returns the updated slot table
and the initial claim-counter value. -/
def loadInitialImages (img tex : Nat → Option Nat) (images : List ImageData) :
    List ImageData × Nat :=
  (( List.range (min INITIAL_LOAD_COUNT images.length)).foldl
      (loadInitialStep img tex) images,
   min INITIAL_LOAD_COUNT images.length)

/-- The materialization step on one slot, the body of
`FisheyeViewer::ensureTextureCreated`: when the surface is loaded and no
texture has been created, call `SDL_CreateTextureFromSurface` (the `tex`
oracle), store the result, and mark `textureCreated` only on success. -/
def materializeSlot (tex : Nat → Option Nat) (d : ImageData) : ImageData :=
  match d.surface with
  | some s =>
      if d.surfaceLoaded && !d.textureCreated then
        let t := tex s
        { d with texture := t, textureCreated := t.isSome }
      else d
  | none => d

/-- `FisheyeViewer::ensureTextureCreated(size_t index)`: bounds check, then
the guarded texture-creation step on slot `index`. -/
def ensureTextureCreated (tex : Nat → Option Nat) (images : List ImageData)
    (index : Nat) : List ImageData :=
  if images.length ≤ index then images
  else modifyIdx (materializeSlot tex) index images

/-- The per-claim update a worker applies to its claimed slot: the effect
of one `loadSurfaceInBackground` call on slot `i` itself. -/
def applyLoad (img : Nat → Option Nat) (i : Nat) (d : ImageData) : ImageData :=
  match img i with
  | some s => markLoaded s d
  | none => d

/-- The interleaved trace of `nextImageToLoad.fetch_add(1)` events of
`backgroundLoadingFunction`.  `trace` lists, in execution order, which
worker performed each fetch-and-increment; the `t`-th event atomically
returns the pre-increment counter value `k0 + t`.  The result pairs each
event's worker with the index it claimed. -/
def poolClaims (k0 : Nat) : List Nat → List (Nat × Nat)
  | [] => []
  | w :: ws => (w, k0) :: poolClaims (k0 + 1) ws

end FisheyeLab

namespace StereoLab

/-- One slot of the stereo viewer's shared table: `struct StereoImageData`
of `dual_main.cpp` (per-eye texture and surface pointers with their
`surfaceLoaded` / `textureCreated` atomic flags).  Pointers are `Option Nat`
handles. -/
structure StereoImageData where
  leftTexture : Option Nat
  leftSurface : Option Nat
  leftSurfaceLoaded : Bool
  leftTextureCreated : Bool
  rightTexture : Option Nat
  rightSurface : Option Nat
  rightSurfaceLoaded : Bool
  rightTextureCreated : Bool
deriving DecidableEq

/-- The left-eye branch of `ensureStereoTexturesCreated`: create the left
texture only when the left surface is loaded, kept, and no left texture
has been created yet. -/
def materializeLeft (tex : Nat → Option Nat) (d : StereoImageData) :
    StereoImageData :=
  match d.leftSurface with
  | some s =>
      if d.leftSurfaceLoaded && !d.leftTextureCreated then
        let t := tex s
        { d with leftTexture := t, leftTextureCreated := t.isSome }
      else d
  | none => d

/-- The right-eye branch of `ensureStereoTexturesCreated`. -/
def materializeRight (tex : Nat → Option Nat) (d : StereoImageData) :
    StereoImageData :=
  match d.rightSurface with
  | some s =>
      if d.rightSurfaceLoaded && !d.rightTextureCreated then
        let t := tex s
        { d with rightTexture := t, rightTextureCreated := t.isSome }
      else d
  | none => d

/-- `StereoFisheyeViewer::ensureStereoTexturesCreated(size_t index)` of
`dual_main.cpp`: bounds check, then the guarded left-eye and right-eye
texture-creation steps on slot `index`. -/
def ensureStereoTexturesCreated (tex : Nat → Option Nat)
    (pairs : List StereoImageData) (index : Nat) : List StereoImageData :=
  if pairs.length ≤ index then pairs
  else FisheyeLab.modifyIdx (fun d => materializeRight tex (materializeLeft tex d))
    index pairs

/-- The pairing step of `StereoFisheyeViewer::loadStereoPairs`: iterate the
left basename set, keep the names also found in the right set, then
`std::sort` the result ascending.  The two `std::set`s are modelled as the
lists of their elements; `std::sort` is modelled by insertion sort, which
meets its contract (a permutation of the input, sorted ascending). -/
def matchingPairsOf (leftNames rightNames : List String) : List String :=
  List.insertionSort (fun a b => a ≤ b)
    (leftNames.filter (fun n => rightNames.contains n))

/-- The extension list `{".png", ".jpg", ".jpeg"}` iterated by the
path-fixup loop of `loadStereoPairs`. -/
def stereoExtensions : List String := [".png", ".jpg", ".jpeg"]

/-- The path-fixup loop of `loadStereoPairs` over a list of candidate
extensions: take the first extension for which both the left and the right
file exist (the `ex` oracle models `fs::exists`) and stop; when no
extension matches, keep the initially assigned `.png` paths. -/
def choosePairPathsLoop (ex : String → Bool) (leftDir rightDir base : String) :
    List String → String × String
  | [] => (leftDir ++ "/" ++ base ++ ".png", rightDir ++ "/" ++ base ++ ".png")
  | e :: es =>
      if ex (leftDir ++ "/" ++ base ++ e) && ex (rightDir ++ "/" ++ base ++ e)
      then (leftDir ++ "/" ++ base ++ e, rightDir ++ "/" ++ base ++ e)
      else choosePairPathsLoop ex leftDir rightDir base es

/-- The full path assignment for one matched pair in `loadStereoPairs`
(`dual_main.cpp` lines 195-208): default to the `.png` paths, then run the
existence-checking loop over `{".png", ".jpg", ".jpeg"}`. -/
def choosePairPaths (ex : String → Bool) (leftDir rightDir base : String) :
    String × String :=
  choosePairPathsLoop ex leftDir rightDir base stereoExtensions

/-- The claim's description of the same path assignment, stated with
`List.find?`: the first extension in order for which both files exist,
defaulting to the `.png` form.  Used to compare `choosePairPaths` against
the specified behaviour. -/
def choosePairPathsSpec (ex : String → Bool) (leftDir rightDir base : String) :
    String × String :=
  match stereoExtensions.find?
      (fun e => ex (leftDir ++ "/" ++ base ++ e) && ex (rightDir ++ "/" ++ base ++ e)) with
  | some e => (leftDir ++ "/" ++ base ++ e, rightDir ++ "/" ++ base ++ e)
  | none => (leftDir ++ "/" ++ base ++ ".png", rightDir ++ "/" ++ base ++ ".png")

/-- `StereoFisheyeViewer::nextImage()`: advance the navigation cursor
unless it already sits at the last index.  `currentIndex` is a C++ `int`,
modelled as `Int`; `n` is `stereoPairs.size()`. -/
def nextImage (n : Nat) (i : Int) : Int :=
  if i < (n : Int) - 1 then i + 1 else i

/-- `StereoFisheyeViewer::previousImage()`: retreat the navigation cursor
unless it already sits at index 0. -/
def previousImage (i : Int) : Int :=
  if 0 < i then i - 1 else i

/-- Outcome of running the README stereo viewer's `main`:
the process exit code, whether `viewer.run()` was reached, whether the
viewer ran with `calibrationLoaded = false` (so every frame is shown
pass-through, using the original surfaces), and whether the calibration
warning was printed. -/
structure StereoRunResult where
  exitCode : Nat
  ranViewer : Bool
  passThrough : Bool
  calibrationWarning : Bool
deriving DecidableEq

/-- `main` of the README stereo viewer (README.md lines 877-918): argument
and directory checks and `initialize()` are fatal; a `loadCalibration()`
failure only prints a warning and continues (the viewer then displays
original surfaces, README lines 582-586 and 641-645); `loadStereoPairs`
failure is fatal; otherwise `viewer.run()` executes and `main` returns 0.
Each `Bool` argument is the success of the corresponding step. -/
def stereoViewerMain (argcOk leftDirOk rightDirOk initOk calibOk pairsOk : Bool) :
    StereoRunResult :=
  if !argcOk then ⟨1, false, false, false⟩
  else if !leftDirOk then ⟨1, false, false, false⟩
  else if !rightDirOk then ⟨1, false, false, false⟩
  else if !initOk then ⟨1, false, false, false⟩
  else
    let warn := !calibOk
    if !pairsOk then ⟨1, false, false, warn⟩
    else ⟨0, true, !calibOk, warn⟩

/-- `main` of the single-image undistortion-preview tool
(`single_undistort.cpp` lines 337-359): a bad argument count exits 1, and a
`loadCalibration()` failure is fatal (`return 1`); otherwise the image is
processed and `main` returns 0. -/
def singleUndistortMain (argcOk calibOk : Bool) : Nat :=
  if !argcOk then 1
  else if !calibOk then 1
  else 0

end StereoLab

namespace UndistortLab

/-- The four remap-table construction attempts of
`FisheyeUndistorter::createUndistortionMaps` (`single_undistort.cpp` lines
94-187), in source order: `cv::fisheye::initUndistortRectifyMap` with the
expanded camera matrix (scale 2.5), the same with the aggressive matrix
(scale 4.0), the same with inverted distortion signs, and finally the
standard (rectilinear) `cv::initUndistortRectifyMap`. -/
inductive MapApproach where
  | fisheyeExpanded
  | fisheyeAggressive
  | fisheyeInverted
  | standardFallback
deriving DecidableEq

/-- The try/catch chain of `createUndistortionMaps`: each fisheye attempt
is wrapped in a `try` whose `catch` moves on to the next attempt; the final
standard call is not guarded, so when it too throws, the exception escapes
the function (`Except.error ()`).  The oracle `ok` tells which attempts
succeed for the calibration at hand. -/
def createUndistortionMaps (ok : MapApproach → Bool) : Except Unit MapApproach :=
  if ok .fisheyeExpanded then .ok .fisheyeExpanded
  else if ok .fisheyeAggressive then .ok .fisheyeAggressive
  else if ok .fisheyeInverted then .ok .fisheyeInverted
  else if ok .standardFallback then .ok .standardFallback
  else .error ()

/-- The source-order list of construction attempts. -/
def approachOrder : List MapApproach :=
  [.fisheyeExpanded, .fisheyeAggressive, .fisheyeInverted, .standardFallback]

/-- Per-camera calibration: focal lengths, principal point, the four
distortion coefficients passed as `distCoeffs`, and the source image size
(`kitti360::FisheyeParams` projection/distortion/image fields as wired up
by `setupCameraParameters`). -/
structure FisheyeCalib where
  fx : ℝ
  fy : ℝ
  cx : ℝ
  cy : ℝ
  k1 : ℝ
  k2 : ℝ
  k3 : ℝ
  k4 : ℝ
  width : ℝ
  height : ℝ

/-- A concrete calibration with all four distortion coefficients zero:
focal lengths 100, principal point (50, 50), source size 200 x 100. -/
noncomputable def zeroDistortionCalib : FisheyeCalib :=
  ⟨100, 100, 50, 50, 0, 0, 0, 0, 200, 100⟩

/-- An output (new) camera matrix `P`: focal lengths and principal point. -/
structure CamMatrix where
  fx : ℝ
  fy : ℝ
  cx : ℝ
  cy : ℝ

/-- Unit focal scale: the output camera matrix equal to the source camera
matrix. -/
def sameCam (c : FisheyeCalib) : CamMatrix := ⟨c.fx, c.fy, c.cx, c.cy⟩

/-- Modelled from the spec: the per-output-pixel source coordinate computed
by `cv::fisheye::initUndistortRectifyMap` (OpenCV, not part of this
repository), which §4.3 describes as inverting the fisheye projection
model.  With rectification `R` the identity (the code passes `cv::Mat()`):
normalize the output pixel by `P`, take `θ = arctan r`, apply the
distortion polynomial `θ_d = θ(1 + k1 θ² + k2 θ⁴ + k3 θ⁶ + k4 θ⁸)`, scale
the normalized point by `θ_d / r` (1 when `r = 0`), and reproject through
the source camera matrix. -/
noncomputable def fisheyeRemapPoint (c : FisheyeCalib) (P : CamMatrix)
    (u v : ℝ) : ℝ × ℝ :=
  let x := (u - P.cx) / P.fx
  let y := (v - P.cy) / P.fy
  let r := Real.sqrt (x ^ 2 + y ^ 2)
  let theta := Real.arctan r
  let thetaD := theta *
    (1 + c.k1 * theta ^ 2 + c.k2 * theta ^ 4 + c.k3 * theta ^ 6 + c.k4 * theta ^ 8)
  let scale := if r = 0 then 1 else thetaD / r
  (c.fx * (scale * x) + c.cx, c.fy * (scale * y) + c.cy)

/-- Modelled from the spec: the per-output-pixel source coordinate computed
by the standard (rectilinear, non-fisheye) `cv::initUndistortRectifyMap`
(OpenCV, not part of this repository), the code's final fallback.  The
four-element coefficient vector is interpreted by the standard model as
`(k1, k2, p1, p2)`, so the third and fourth stored coefficients act as the
tangential terms. -/
noncomputable def standardRemapPoint (c : FisheyeCalib) (P : CamMatrix)
    (u v : ℝ) : ℝ × ℝ :=
  let x := (u - P.cx) / P.fx
  let y := (v - P.cy) / P.fy
  let r2 := x ^ 2 + y ^ 2
  let radial := 1 + c.k1 * r2 + c.k2 * r2 ^ 2
  let xd := x * radial + 2 * c.k3 * x * y + c.k4 * (r2 + 2 * x ^ 2)
  let yd := y * radial + c.k3 * (r2 + 2 * y ^ 2) + 2 * c.k4 * x * y
  (c.fx * xd + c.cx, c.fy * yd + c.cy)

end UndistortLab

namespace FisheyeLab

theorem modifyIdx_getElem_self (f : α → α) :
    ∀ (i : Nat) (l : List α), (modifyIdx f i l)[i]? = (l[i]?).map f := by
  intro i l
  induction l generalizing i with
  | nil => simp [modifyIdx]
  | cons d ds ih =>
      cases i with
      | zero => simp [modifyIdx]
      | succ n => simpa [modifyIdx] using ih n

theorem modifyIdx_getElem_ne (f : α → α) {i j : Nat} (h : j ≠ i) :
    ∀ (l : List α), (modifyIdx f i l)[j]? = l[j]? := by
  intro l
  induction l generalizing i j with
  | nil => simp [modifyIdx]
  | cons d ds ih =>
      cases i with
      | zero =>
          cases j with
          | zero => exact absurd rfl h
          | succ m => simp [modifyIdx]
      | succ n =>
          cases j with
          | zero => simp [modifyIdx]
          | succ m =>
              have hm : m ≠ n := by omega
              simpa [modifyIdx] using ih hm

theorem foldModify_getElem (f : Nat → α → α)
    (hidem : ∀ i d, f i (f i d) = f i d) :
    ∀ (ix : List Nat) (l : List α) (j : Nat),
    (ix.foldl (fun acc i => modifyIdx (f i) i acc) l)[j]? =
      if j ∈ ix then (l[j]?).map (f j) else l[j]? := by
  intro ix
  induction ix with
  | nil => intro l j; simp
  | cons c cs ih =>
      intro l j
      simp only [List.foldl_cons]
      rw [ih]
      by_cases hj : j = c
      · subst hj
        by_cases hm : j ∈ cs
        · rw [if_pos hm, if_pos (List.mem_cons_self j cs), modifyIdx_getElem_self]
          cases hl : l[j]? with
          | none => simp
          | some d => simp [hidem]
        · rw [if_neg hm, if_pos (List.mem_cons_self j cs), modifyIdx_getElem_self]
      · by_cases hm : j ∈ cs
        · rw [if_pos hm, modifyIdx_getElem_ne _ hj]
          simp [List.mem_cons, hj, hm]
        · rw [if_neg hm, modifyIdx_getElem_ne _ hj]
          simp [List.mem_cons, hj, hm]

theorem modifyIdx_of_length_le (f : α → α) :
    ∀ (i : Nat) (l : List α), l.length ≤ i → modifyIdx f i l = l := by
  intro i l
  induction l generalizing i with
  | nil => intro h; simp [modifyIdx]
  | cons d ds ih =>
      intro h
      cases i with
      | zero => simp at h
      | succ n =>
          have : ds.length ≤ n := by simpa using h
          simp [modifyIdx, ih n this]

theorem modifyIdx_id : ∀ (i : Nat) (l : List α),
    modifyIdx (fun d => d) i l = l := by
  intro i l
  induction l generalizing i with
  | nil => simp [modifyIdx]
  | cons d ds ih =>
      cases i with
      | zero => simp [modifyIdx]
      | succ n => simp [modifyIdx, ih n]

theorem loadSurfaceInBackground_eq_modify (img : Nat → Option Nat)
    (l : List ImageData) (c : Nat) :
    loadSurfaceInBackground img l c = modifyIdx (applyLoad img c) c l := by
  unfold loadSurfaceInBackground
  by_cases hlen : l.length ≤ c
  · rw [if_pos hlen, modifyIdx_of_length_le _ _ _ hlen]
  · rw [if_neg hlen]
    cases himg : img c with
    | some s =>
        have : applyLoad img c = markLoaded s := by
          funext d; simp [applyLoad, himg]
        rw [this]
    | none =>
        have : applyLoad img c = fun d => d := by
          funext d; simp [applyLoad, himg]
        rw [this, modifyIdx_id]

theorem applyLoad_idem (img : Nat → Option Nat) (i : Nat) (d : ImageData) :
    applyLoad img i (applyLoad img i d) = applyLoad img i d := by
  cases himg : img i <;> simp [applyLoad, himg, markLoaded]

theorem runPool_getElem (img : Nat → Option Nat) (l : List ImageData)
    (claims : List Nat) (j : Nat) :
    (runPool img l claims)[j]? =
      if j ∈ claims then (l[j]?).map (applyLoad img j) else l[j]? := by
  have hfun : loadSurfaceInBackground img =
      fun acc i => modifyIdx (applyLoad img i) i acc := by
    funext acc i
    exact loadSurfaceInBackground_eq_modify img acc i
  unfold runPool
  rw [hfun]
  exact foldModify_getElem (applyLoad img) (applyLoad_idem img) claims l j

theorem applyInitialLoad_idem (img tex : Nat → Option Nat) (i : Nat)
    (d : ImageData) :
    applyInitialLoad img tex i (applyInitialLoad img tex i d) =
      applyInitialLoad img tex i d := by
  cases himg : img i <;> simp [applyInitialLoad, himg]

theorem loadInitialImages_fst_getElem (img tex : Nat → Option Nat)
    (N j : Nat) :
    ((loadInitialImages img tex (blankImages N)).1)[j]? =
      if j < N then
        some (if j < min INITIAL_LOAD_COUNT N
              then applyInitialLoad img tex j ImageData.init
              else ImageData.init)
      else none := by
  have hlen : (blankImages N).length = N := by
    simp [blankImages]
  have hfun : loadInitialStep img tex =
      fun acc i => modifyIdx (applyInitialLoad img tex i) i acc := rfl
  unfold loadInitialImages
  rw [hlen, hfun,
    foldModify_getElem (applyInitialLoad img tex) (applyInitialLoad_idem img tex)]
  by_cases hj : j < N
  · by_cases hK : j < min INITIAL_LOAD_COUNT N
    · simp [blankImages, List.mem_range, hK, hj, List.getElem?_replicate]
    · simp [blankImages, List.mem_range, hK, hj, List.getElem?_replicate]
  · have hK : ¬ j < min INITIAL_LOAD_COUNT N := by omega
    simp [blankImages, List.mem_range, hK, hj, List.getElem?_replicate]

theorem loadInitialImages_snd (img tex : Nat → Option Nat) (N : Nat) :
    (loadInitialImages img tex (blankImages N)).2 = min INITIAL_LOAD_COUNT N := by
  simp [loadInitialImages, blankImages]

theorem quiescent_slotStatus (img tex : Nat → Option Nat) (N : Nat)
    (claims : List Nat)
    (hcov : ∀ i, i < N → min INITIAL_LOAD_COUNT N ≤ i → i ∈ claims)
    (i : Nat) (hi : i < N) :
    slotStatus (runPool img (loadInitialImages img tex (blankImages N)).1 claims) i =
      some (if (img i).isSome then DecodeStatus.Decoded else DecodeStatus.Pending) := by
  unfold slotStatus
  rw [runPool_getElem, loadInitialImages_fst_getElem]
  by_cases hK : i < min INITIAL_LOAD_COUNT N
  · by_cases hc : i ∈ claims <;>
      cases himg : img i <;>
        simp [hi, hK, hc, applyLoad, applyInitialLoad, markLoaded,
          decodeStatusOf, ImageData.init, himg]
  · have hc : i ∈ claims := hcov i hi (Nat.le_of_not_lt hK)
    cases himg : img i <;>
      simp [hi, hK, hc, applyLoad, applyInitialLoad, markLoaded,
        decodeStatusOf, ImageData.init, himg]

theorem mem_poolClaims_le :
    ∀ (trace : List Nat) (k0 w i : Nat), (w, i) ∈ poolClaims k0 trace → k0 ≤ i := by
  intro trace
  induction trace with
  | nil => intro k0 w i h; simp [poolClaims] at h
  | cons x xs ih =>
      intro k0 w i h
      simp only [poolClaims, List.mem_cons, Prod.mk.injEq] at h
      rcases h with ⟨_, hi⟩ | h
      · omega
      · have := ih (k0 + 1) w i h
        omega

theorem mem_poolClaims_unique :
    ∀ (trace : List Nat) (k0 w w' i : Nat),
      (w, i) ∈ poolClaims k0 trace → (w', i) ∈ poolClaims k0 trace → w = w' := by
  intro trace
  induction trace with
  | nil => intro k0 w w' i h; simp [poolClaims] at h
  | cons x xs ih =>
      intro k0 w w' i h h'
      simp only [poolClaims, List.mem_cons, Prod.mk.injEq] at h h'
      rcases h with ⟨hw, hi⟩ | h
      · rcases h' with ⟨hw', _⟩ | h'
        · rw [hw, hw']
        · have := mem_poolClaims_le xs (k0 + 1) w' i h'
          omega
      · rcases h' with ⟨_, hi'⟩ | h'
        · have := mem_poolClaims_le xs (k0 + 1) w i h
          omega
        · exact ih (k0 + 1) w w' i h h'

theorem modifyIdx_of_fix (f : α → α) :
    ∀ (i : Nat) (l : List α), (∀ d, l[i]? = some d → f d = d) →
      modifyIdx f i l = l := by
  intro i l
  induction l generalizing i with
  | nil => intro h; simp [modifyIdx]
  | cons d ds ih =>
      intro h
      cases i with
      | zero =>
          have : f d = d := h d (by simp)
          simp [modifyIdx, this]
      | succ n =>
          have : ∀ e, ds[n]? = some e → f e = e := by
            intro e he
            exact h e (by simpa using he)
          simp [modifyIdx, ih n this]

end FisheyeLab

open FisheyeLab StereoLab UndistortLab

/-- C1: for every sequence of size `N`, after the worker pool reaches
quiescence (the shared claim counter is at least `N` and every claimed
decode has finished), the decode status of every slot is fully determined:
a slot whose load succeeded is `Decoded`, and a slot whose load failed is
left unchanged by the worker — it remains `Pending` (the code records no
`Failed` status and never retries), and no slot is ever `Decoding`.  This
is the amended form of the claim: the original claim that every slot
reaches a terminal (`Decoded` or `Failed`) status fails, because on a
failed `IMG_Load` the worker sets nothing at all. -/
theorem c1_quiescence_decode_status (img tex : Nat → Option Nat) (N : Nat)
    (claims : List Nat)
    (hcov : ∀ i, i < N → min INITIAL_LOAD_COUNT N ≤ i → i ∈ claims)
    (i : Nat) (hi : i < N) :
    slotStatus (runPool img (loadInitialImages img tex (blankImages N)).1 claims) i =
      some (if (img i).isSome then DecodeStatus.Decoded else DecodeStatus.Pending) :=
  quiescent_slotStatus img tex N claims hcov i hi

/-- Witness for C1: a 12-slot sequence in which every load succeeds, with
the pool having claimed indices 10 and 11; slot 11 ends `Decoded`. -/
theorem c1_quiescence_decode_status_witness :
    slotStatus
      (runPool (fun i => some (i + 1))
        (loadInitialImages (fun i => some (i + 1)) (fun s => some s)
          (blankImages 12)).1 [10, 11]) 11 = some DecodeStatus.Decoded := by
  have h := c1_quiescence_decode_status (fun i => some (i + 1)) (fun s => some s)
    12 [10, 11] (by decide) 11 (by decide)
  simpa using h

/-- Counterexample for C1 as stated: an 11-asset sequence whose index 10
fails to load.  After quiescence (the pool claimed and processed index 10),
slot 10 still has `surfaceLoaded = false`, i.e. decode status `Pending`,
which is not terminal: the worker never sets a `Failed` status. -/
theorem c1_failed_load_not_terminal :
    slotStatus
      (runPool (fun i => if i = 10 then none else some i)
        (loadInitialImages (fun i => if i = 10 then none else some i)
          (fun s => some s) (blankImages 11)).1 [10]) 10 =
      some DecodeStatus.Pending ∧
    DecodeStatus.Pending.isTerminal = false := by
  constructor
  · decide
  · decide

/-- C2: ownership of the next index to decode is determined solely by the
atomic fetch-and-increment of the shared claim counter
(`nextImageToLoad.fetch_add(1)`), which starts at the eager-window size
`min INITIAL_LOAD_COUNT N` set by `loadInitialImages`.  Along every
interleaved trace of claim events: (1) every claimed index is at least the
eager-window size, so an index below the eager window is never claimed by
any worker; and (2) two workers never obtain the same index, so at most
one worker is ever in the decoding phase for a given slot. -/
theorem c2_claim_ownership_exclusive (img tex : Nat → Option Nat) (N : Nat)
    (trace : List Nat) (w w' i : Nat) :
    ((w, i) ∈ poolClaims ((loadInitialImages img tex (blankImages N)).2) trace →
       min INITIAL_LOAD_COUNT N ≤ i) ∧
    ((w, i) ∈ poolClaims ((loadInitialImages img tex (blankImages N)).2) trace →
     (w', i) ∈ poolClaims ((loadInitialImages img tex (blankImages N)).2) trace →
       w = w') := by
  rw [loadInitialImages_snd]
  exact ⟨mem_poolClaims_le trace _ w i, mem_poolClaims_unique trace _ w w' i⟩

/-- Witness for C2: with 25 assets and the event trace `[0, 1, 0, 2]`
(worker 1 performs the second fetch-and-increment, claiming index 11),
index 11 is at least the eager-window size 10, and any two workers holding
index 11 coincide. -/
theorem c2_claim_ownership_exclusive_witness :
    min INITIAL_LOAD_COUNT 25 ≤ 11 ∧ (1 : Nat) = 1 :=
  ⟨(c2_claim_ownership_exclusive (fun _ => none) (fun _ => none) 25
      [0, 1, 0, 2] 1 1 11).1 (by decide),
   (c2_claim_ownership_exclusive (fun _ => none) (fun _ => none) 25
      [0, 1, 0, 2] 1 1 11).2 (by decide) (by decide)⟩

/-- C3 (amended): with 25 assets, `loadInitialImages` decodes the first
`min(10, 25) = 10` indices synchronously and initializes the claim counter
to 10; immediately after startup every index in `[0, 10)` whose load
succeeds is `Decoded`; and after pool quiescence every index in `[10, 25)`
is `Decoded` exactly when its load succeeds — an index whose load fails
remains `Pending` (no `Failed` status is recorded), which amends the
original claim that all of `[10, 25)` reach a terminal status. -/
theorem c3_eager_window_coverage (img tex : Nat → Option Nat)
    (claims : List Nat)
    (hcov : ∀ i, i < 25 → 10 ≤ i → i ∈ claims)
    (hinit : ∀ i, i < 10 → (img i).isSome) :
    (loadInitialImages img tex (blankImages 25)).2 = 10 ∧
    (∀ i, i < 10 →
      slotStatus (loadInitialImages img tex (blankImages 25)).1 i =
        some DecodeStatus.Decoded) ∧
    (∀ i, 10 ≤ i → i < 25 →
      slotStatus (runPool img (loadInitialImages img tex (blankImages 25)).1 claims) i =
        some (if (img i).isSome then DecodeStatus.Decoded else DecodeStatus.Pending)) := by
  refine ⟨by rw [loadInitialImages_snd]; simp [INITIAL_LOAD_COUNT], ?_, ?_⟩
  · intro i hi
    unfold slotStatus
    rw [loadInitialImages_fst_getElem]
    have h25 : i < 25 := by omega
    have hK : i < min INITIAL_LOAD_COUNT 25 := by
      simp only [INITIAL_LOAD_COUNT]; omega
    obtain ⟨s, hs⟩ := Option.isSome_iff_exists.mp (hinit i hi)
    simp [h25, hK, applyInitialLoad, hs, decodeStatusOf]
  · intro i h10 h25
    refine quiescent_slotStatus img tex 25 claims ?_ i h25
    intro j hj hge
    refine hcov j hj ?_
    simpa [INITIAL_LOAD_COUNT] using hge

/-- Witness for C3: all loads succeed, the pool claims exactly `[10, 25)`;
the counter is initialized to 10, slot 3 is `Decoded` at startup, and slot
24 is `Decoded` after quiescence. -/
theorem c3_eager_window_coverage_witness :
    (loadInitialImages (fun i => some i) (fun s => some s) (blankImages 25)).2 = 10 ∧
    slotStatus (loadInitialImages (fun i => some i) (fun s => some s)
      (blankImages 25)).1 3 = some DecodeStatus.Decoded ∧
    slotStatus (runPool (fun i => some i)
      (loadInitialImages (fun i => some i) (fun s => some s) (blankImages 25)).1
      (List.range' 10 15)) 24 = some DecodeStatus.Decoded := by
  have h := c3_eager_window_coverage (fun i => some i) (fun s => some s)
    (List.range' 10 15) (by decide) (by decide)
  refine ⟨h.1, h.2.1 3 (by omega), ?_⟩
  have h24 := h.2.2 24 (by omega) (by omega)
  simpa using h24

/-- Counterexample for C3 as stated: 25 assets, every file in the eager
window `[0, 10)` decodes successfully (as the claim assumes), but the file
at index 10 fails to load.  After pool quiescence over the claims
`[10, 25)`, slot 10 is still `Pending` — it has not reached a terminal
status. -/
theorem c3_failed_load_in_tail_not_terminal :
    (∀ i, i < 10 → ((if i = 10 then none else some i) : Option Nat).isSome) ∧
    slotStatus
      (runPool (fun i => if i = 10 then none else some i)
        (loadInitialImages (fun i => if i = 10 then none else some i)
          (fun s => some s) (blankImages 25)).1 (List.range' 10 15)) 10 =
      some DecodeStatus.Pending ∧
    DecodeStatus.Pending.isTerminal = false := by
  refine ⟨by decide, by decide, by decide⟩

/-- C4 (amended): with all four distortion coefficients zero and the output
camera matrix equal to the source camera matrix (unit focal scale), the
identity property holds of the standard rectilinear construction — the
code's fallback model — which maps every output pixel `(u, v)` to exactly
`(u, v)`; the fisheye-model construction used by the primary attempts is
the identity at the principal point.  This amends the original claim: the
fisheye model maps `(u, v)` through `θ = arctan r`, which is not the
identity away from the principal point even with zero coefficients. -/
theorem c4_rectilinear_identity (c : FisheyeCalib)
    (h1 : c.k1 = 0) (h2 : c.k2 = 0) (h3 : c.k3 = 0) (h4 : c.k4 = 0)
    (hfx : c.fx ≠ 0) (hfy : c.fy ≠ 0) (u v : ℝ) :
    standardRemapPoint c (sameCam c) u v = (u, v) ∧
    fisheyeRemapPoint c (sameCam c) c.cx c.cy = (c.cx, c.cy) := by
  constructor
  · simp only [standardRemapPoint, sameCam, h1, h2, h3, h4, Prod.mk.injEq]
    constructor
    · field_simp
    · field_simp
  · have hx : (c.cx - c.cx) / c.fx = 0 := by rw [sub_self, zero_div]
    have hy : (c.cy - c.cy) / c.fy = 0 := by rw [sub_self, zero_div]
    simp only [fisheyeRemapPoint, sameCam, hx, hy]
    norm_num

/-- Witness for C4: the concrete zero-distortion calibration; the
rectilinear map fixes the pixel (7, 9). -/
theorem c4_rectilinear_identity_witness :
    zeroDistortionCalib.fx ≠ 0 ∧
    standardRemapPoint zeroDistortionCalib (sameCam zeroDistortionCalib) 7 9 =
      (7, 9) := by
  refine ⟨by norm_num [zeroDistortionCalib], ?_⟩
  exact (c4_rectilinear_identity zeroDistortionCalib rfl rfl rfl rfl
    (by norm_num [zeroDistortionCalib]) (by norm_num [zeroDistortionCalib]) 7 9).1

/-- Counterexample for C4 as stated: for the zero-distortion calibration
with output camera matrix equal to the source camera matrix, the
fisheye-model map sends the in-bounds output pixel (150, 50) to horizontal
source coordinate `25π + 50 ≈ 128.5`, more than 20 pixels away from 150 —
an analytic deviation of the equidistant model, far beyond any
floating-point tolerance. -/
theorem c4_fisheye_zero_distortion_not_identity :
    (0 : ℝ) ≤ 150 ∧ (150 : ℝ) < zeroDistortionCalib.width ∧
    (0 : ℝ) ≤ 50 ∧ (50 : ℝ) < zeroDistortionCalib.height ∧
    (fisheyeRemapPoint zeroDistortionCalib (sameCam zeroDistortionCalib) 150 50).1 =
      25 * Real.pi + 50 ∧
    25 * Real.pi + 50 < 130 ∧
    (20 : ℝ) < 150 - (25 * Real.pi + 50) := by
  have hpi : Real.pi < 3.15 := Real.pi_lt_d2
  refine ⟨by norm_num, by norm_num [zeroDistortionCalib], by norm_num,
    by norm_num [zeroDistortionCalib], ?_, by linarith, by linarith⟩
  have hx : ((150 : ℝ) - 50) / 100 = 1 := by norm_num
  have hy : ((50 : ℝ) - 50) / 100 = 0 := by norm_num
  have hr : Real.sqrt ((1 : ℝ) ^ 2 + 0 ^ 2) = 1 := by
    rw [show ((1 : ℝ) ^ 2 + 0 ^ 2) = 1 by norm_num, Real.sqrt_one]
  simp only [fisheyeRemapPoint, sameCam, zeroDistortionCalib, hx, hy, hr]
  rw [if_neg one_ne_zero, Real.arctan_one]
  ring

/-- C5 (amended): when the first fisheye construction attempt fails,
`createUndistortionMaps` does not immediately fall back to the rectilinear
mapping: it retries the fisheye model with the aggressive camera matrix,
then with inverted distortion signs, and only when all three fisheye
attempts fail does it call the standard rectilinear construction; that
final call is unguarded, so when it too fails the exception escapes the
construction.  The result is exactly the first succeeding attempt in
source order, and an escaped exception when all four fail. -/
theorem c5_attempt_chain_order (ok : MapApproach → Bool) :
    createUndistortionMaps ok =
      (match approachOrder.find? ok with
       | some m => Except.ok m
       | none => Except.error ()) := by
  cases h1 : ok .fisheyeExpanded <;> cases h2 : ok .fisheyeAggressive <;>
    cases h3 : ok .fisheyeInverted <;> cases h4 : ok .standardFallback <;>
      simp [createUndistortionMaps, approachOrder, List.find?, h1, h2, h3, h4]

/-- Counterexample for C5 as stated: when only the second (fisheye,
aggressive-scale) attempt succeeds, construction does not fall back to the
rectilinear mapping at all — it succeeds with a second fisheye attempt;
and when every attempt fails, the exception escapes the construction
instead of it proceeding. -/
theorem c5_fallback_not_single_rectilinear :
    createUndistortionMaps
        (fun m => match m with
          | .fisheyeAggressive => true
          | _ => false) = Except.ok MapApproach.fisheyeAggressive ∧
    MapApproach.fisheyeAggressive ≠ MapApproach.standardFallback ∧
    createUndistortionMaps (fun _ => false) = Except.error () := by
  refine ⟨rfl, by decide, rfl⟩

/-- C6: a calibration-load failure does not stop the stereo viewing
pipeline: the README stereo viewer's `main` prints a warning, continues,
reaches `viewer.run()` with `calibrationLoaded = false` (so frames are
shown pass-through) and exits 0; only the dedicated single-image
undistortion-preview tool treats the failure as fatal, exiting with the
non-zero code 1. -/
theorem c6_calibration_failure_policy :
    (stereoViewerMain true true true true false true).exitCode = 0 ∧
    (stereoViewerMain true true true true false true).ranViewer = true ∧
    (stereoViewerMain true true true true false true).passThrough = true ∧
    (stereoViewerMain true true true true false true).calibrationWarning = true ∧
    singleUndistortMain true false = 1 ∧ (1 : Nat) ≠ 0 := by
  refine ⟨rfl, rfl, rfl, rfl, rfl, by decide⟩

/-- C7: materialization is idempotent.  In the single viewer, invoking
`ensureTextureCreated` on a slot whose `textureCreated` flag is already set
leaves the slot table unchanged — the texture handle is untouched and
`SDL_CreateTextureFromSurface` is not called again; likewise in the stereo
viewer, `ensureStereoTexturesCreated` on a pair whose two `textureCreated`
flags are set is a no-op. -/
theorem c7_materialization_idempotent :
    (∀ (tex : Nat → Option Nat) (images : List ImageData) (index : Nat)
      (d : ImageData), images[index]? = some d → d.textureCreated = true →
      ensureTextureCreated tex images index = images) ∧
    (∀ (tex : Nat → Option Nat) (pairs : List StereoImageData) (index : Nat)
      (p : StereoImageData), pairs[index]? = some p →
      p.leftTextureCreated = true → p.rightTextureCreated = true →
      ensureStereoTexturesCreated tex pairs index = pairs) := by
  constructor
  · intro tex images index d hd ht
    have hlt : index < images.length := by
      by_contra hle
      rw [List.getElem?_eq_none (by omega)] at hd
      exact Option.noConfusion hd
    unfold ensureTextureCreated
    rw [if_neg (by omega)]
    apply modifyIdx_of_fix
    intro e he
    rw [hd] at he
    cases he
    cases hs : d.surface with
    | none => simp [materializeSlot, hs]
    | some s => simp [materializeSlot, hs, ht]
  · intro tex pairs index p hp hl hr
    have hlt : index < pairs.length := by
      by_contra hle
      rw [List.getElem?_eq_none (by omega)] at hp
      exact Option.noConfusion hp
    unfold ensureStereoTexturesCreated
    rw [if_neg (by omega)]
    apply modifyIdx_of_fix
    intro e he
    rw [hp] at he
    cases he
    have hml : materializeLeft tex p = p := by
      cases hs : p.leftSurface with
      | none => simp [materializeLeft, hs]
      | some s => simp [materializeLeft, hs, hl]
    rw [hml]
    cases hs : p.rightSurface with
    | none => simp [materializeRight, hs]
    | some s => simp [materializeRight, hs, hr]

/-- Witness for C7: a one-slot table already materialized; both the single
and the stereo materialization steps leave it unchanged. -/
theorem c7_materialization_idempotent_witness :
    ensureTextureCreated (fun s => some (s + 50))
      [(⟨some 5, some 3, true, true⟩ : ImageData)] 0 =
      [(⟨some 5, some 3, true, true⟩ : ImageData)] ∧
    ensureStereoTexturesCreated (fun s => some (s + 50))
      [(⟨some 5, some 3, true, true, some 6, some 4, true, true⟩ :
        StereoImageData)] 0 =
      [(⟨some 5, some 3, true, true, some 6, some 4, true, true⟩ :
        StereoImageData)] :=
  ⟨c7_materialization_idempotent.1 (fun s => some (s + 50)) _ 0
      ⟨some 5, some 3, true, true⟩ rfl rfl,
   c7_materialization_idempotent.2 (fun s => some (s + 50)) _ 0
      ⟨some 5, some 3, true, true, some 6, some 4, true, true⟩ rfl rfl rfl⟩

/-- C8: the paired sequence built by `loadStereoPairs` is exactly the
intersection of the left and right basename sets, sorted ascending: a name
is in the result iff it is in both inputs, the result is sorted, it has no
duplicates when the left set has none, and on the concrete sets
{"a","b","c"} and {"b","c","d"} the result is exactly ["b", "c"]. -/
theorem c8_stereo_pairing (leftNames rightNames : List String) :
    (∀ s, s ∈ matchingPairsOf leftNames rightNames ↔
        s ∈ leftNames ∧ s ∈ rightNames) ∧
    List.Sorted (fun a b => a ≤ b) (matchingPairsOf leftNames rightNames) ∧
    (leftNames.Nodup → (matchingPairsOf leftNames rightNames).Nodup) ∧
    matchingPairsOf ["a", "b", "c"] ["b", "c", "d"] = ["b", "c"] := by
  have hperm := List.perm_insertionSort (fun a b : String => a ≤ b)
    (leftNames.filter fun n => rightNames.contains n)
  have hconcrete : matchingPairsOf ["a", "b", "c"] ["b", "c", "d"] = ["b", "c"] := by
    have hfilter : (["a", "b", "c"].filter fun n => ["b", "c", "d"].contains n) =
        ["b", "c"] := by decide
    rw [matchingPairsOf, hfilter]
    simp only [List.insertionSort, List.orderedInsert]
    rw [if_pos (by rw [String.le_iff_toList_le]; decide)]
  refine ⟨?_, ?_, ?_, hconcrete⟩
  · intro s
    rw [matchingPairsOf, hperm.mem_iff, List.mem_filter]
    simp
  · exact List.sorted_insertionSort _ _
  · intro h
    exact (hperm.nodup_iff).2 (h.filter _)

/-- Witness for C8: a concrete duplicate-free left set; the resulting
pairing is duplicate-free. -/
theorem c8_stereo_pairing_witness :
    (["b", "a"] : List String).Nodup ∧
    (matchingPairsOf ["b", "a"] ["a", "c"]).Nodup :=
  ⟨by decide, (c8_stereo_pairing ["b", "a"] ["a", "c"]).2.2.1 (by decide)⟩

/-- C9: the navigation cursor stays in `[0, N)` for a non-empty sequence:
from any in-bounds cursor, `nextImage` and `previousImage` produce
in-bounds cursors, `nextImage` at `N - 1` is a no-op, and `previousImage`
at 0 is a no-op. -/
theorem c9_nav_cursor_bounds (n : Nat) (i : Int) (h0 : 0 ≤ i)
    (hn : i < (n : Int)) :
    (0 ≤ nextImage n i ∧ nextImage n i < (n : Int)) ∧
    (0 ≤ previousImage i ∧ previousImage i < (n : Int)) ∧
    nextImage n ((n : Int) - 1) = (n : Int) - 1 ∧
    previousImage 0 = 0 := by
  simp only [nextImage, previousImage]
  refine ⟨?_, ?_, ?_, ?_⟩
  · constructor <;> (split <;> omega)
  · constructor <;> (split <;> omega)
  · split <;> omega
  · split <;> omega

/-- Witness for C9: three assets, cursor at 1; advancing stays in
bounds. -/
theorem c9_nav_cursor_bounds_witness :
    0 ≤ nextImage 3 1 ∧ nextImage 3 1 < ((3 : Nat) : Int) :=
  (c9_nav_cursor_bounds 3 1 (by norm_num) (by norm_num)).1

/-- C10: the path assignment of `loadStereoPairs` for a matched basename
equals its specification: both paths use the first extension in the order
`.png`, `.jpg`, `.jpeg` for which both the left and the right file exist,
and default to the `.png` form when no extension makes both exist. -/
theorem c10_extension_selection (ex : String → Bool)
    (leftDir rightDir base : String) :
    choosePairPaths ex leftDir rightDir base =
      choosePairPathsSpec ex leftDir rightDir base := by
  unfold choosePairPaths choosePairPathsSpec stereoExtensions
  cases h1 : ex (leftDir ++ "/" ++ base ++ ".png") &&
      ex (rightDir ++ "/" ++ base ++ ".png") <;>
    cases h2 : ex (leftDir ++ "/" ++ base ++ ".jpg") &&
        ex (rightDir ++ "/" ++ base ++ ".jpg") <;>
      cases h3 : ex (leftDir ++ "/" ++ base ++ ".jpeg") &&
          ex (rightDir ++ "/" ++ base ++ ".jpeg") <;>
        simp [choosePairPathsLoop, List.find?, h1, h2, h3]
